import Mathlib

/-!
Verification of the MAQT log viewer (`src/log_viewer.py`).

This file gives a shallow embedding of the log-parsing and table-assembly
core of the tool: the line classifier and extractors of `_parse_maqt_log`,
the derived-metric computation `_interpolate_total_aot` (numpy element-wise
arithmetic with 1-D broadcasting), the table assembly
`_building_maqt_dataframe` (pandas `DataFrame` construction and
`concat(axis=1)`), and the top-level `run` flow of `Log.__init__` / `main`
(file loading, artifact production, exit codes).

Numbers are modelled as rationals (`ℚ`): every arithmetic operation the
program performs (parse a decimal literal, multiply, add, divide by 100,
sum a list) is exact on the decimal inputs considered here, so `ℚ` is a
faithful carrier for the identities and the error behaviour under study.

Python library functions are modelled from their documented behaviour:
`str.split`, `str.strip`, slicing, `float()` on plain decimal literals
(exponent, `inf`/`nan`, and underscore forms are not exercised by the log
dialect and are not modelled), `eval` on a list-of-`('name', number)`-tuples
literal, `collections.OrderedDict` over such pairs, `sorted`,
`datetime.strptime` with format `%Y%m%d` (CPython `_strptime` regexes:
`%Y` is exactly four digits, `%m` is `1[0-2]|0[1-9]|[1-9]`, `%d` is
`3[01]|[12]\d|0[1-9]|[1-9]`, alternatives tried in that order), numpy
1-D broadcasting, `np.vstack`, and the pandas `DataFrame` shape rules.
-/

/-! ## Python string primitives -/

/-- Model of `beginsWith pat s`: does `s` start with `pat`?  Models `re.search` of an
anchored literal pattern such as `"^L1C"`. -/
def beginsWith : List Char → List Char → Bool
  | [], _ => true
  | _ :: _, [] => false
  | a :: ps, b :: ss => a = b && beginsWith ps ss

/-- Model of `occursIn pat s`: does `pat` occur as a contiguous substring of `s`?
Models `re.search` of an unanchored literal pattern (the escaped-parenthesis
cloud pattern and the plain substring patterns of the source). -/
def occursIn : List Char → List Char → Bool
  | p, [] => beginsWith p []
  | p, b :: ss => beginsWith p (b :: ss) || occursIn p ss

/-- Python slice `s[a:b]` on code points. -/
def pySlice (s : String) (a b : ℕ) : String := String.mk ((s.data.drop a).take (b - a))

/-- Python slice `s[a:]`. -/
def pySliceFrom (s : String) (a : ℕ) : String := String.mk (s.data.drop a)

/-- Python slice `s[:-n]` (used for the artifact base name `name[:-4]`). -/
def pyDropLast (s : String) (n : ℕ) : String := String.mk (s.data.take (s.data.length - n))

/-- Drop from the end of a list while a predicate holds. -/
def dropEndWhile (p : Char → Bool) (cs : List Char) : List Char :=
  (cs.reverse.dropWhile p).reverse

/-- Python `s.strip(set)`: remove characters of `set` from both ends. -/
def pyStripSet (set : List Char) (s : String) : String :=
  String.mk (dropEndWhile (fun c => set.contains c) (s.data.dropWhile (fun c => set.contains c)))

/-- Model of `text.split(sep)[i]`, `none` on `IndexError`.  Lean's `splitOn` agrees
with Python `str.split` for a non-empty separator. -/
def splitIdx (s sep : String) (i : ℕ) : Option String := (s.splitOn sep)[i]?

/-! ## Python `float()` on plain decimal literals -/

/-- The whitespace `float()` strips from both ends. -/
def pyIsSpace (c : Char) : Bool :=
  c = ' ' || c = '\t' || c = '\n' || c = '\r' || c = Char.ofNat 11 || c = Char.ofNat 12

def digitVal (c : Char) : ℕ := c.toNat - 48

def digitsToNat (cs : List Char) : ℕ := cs.foldl (fun a c => 10 * a + digitVal c) 0

/-- Unsigned decimal literal: `123`, `123.`, `123.45` or `.45`. -/
def parseUnsigned (cs : List Char) : Option ℚ :=
  let intPart := cs.takeWhile Char.isDigit
  let rest := cs.dropWhile Char.isDigit
  match rest with
  | [] => if intPart.isEmpty then none else some (digitsToNat intPart : ℚ)
  | c :: fr =>
    if c = '.' then
      let frac := fr.takeWhile Char.isDigit
      if (fr.dropWhile Char.isDigit).isEmpty then
        if intPart.isEmpty && frac.isEmpty then none
        else some ((digitsToNat intPart : ℚ) + (digitsToNat frac : ℚ) / (10 : ℚ) ^ frac.length)
      else none
    else none

/-- Python `float(s)` on plain decimal literals: surrounding whitespace is
stripped, an optional sign precedes the digits. -/
def pyFloat (s : String) : Option ℚ :=
  let cs := dropEndWhile pyIsSpace (s.data.dropWhile pyIsSpace)
  match cs with
  | '-' :: r => (parseUnsigned r).map Neg.neg
  | '+' :: r => parseUnsigned r
  | _ => parseUnsigned cs

/-! ## `eval` of a `[('name', number), ...]` literal

The aerosol-proportion and AOT payloads are Python literals such as
`[('dust', 0.3), ('sea_salt', 0.7)]`; the source applies `eval` to them.
Any payload outside this shape makes the original `eval`/`OrderedDict`
raise, which the model maps to a malformed-field failure. -/

def quoteChar : Char := Char.ofNat 39

def skipSpaces (cs : List Char) : List Char := cs.dropWhile pyIsSpace

/-- A single-quoted string literal (no escapes — aerosol names are plain). -/
def parseQuoted (cs : List Char) : Option (String × List Char) :=
  match cs with
  | c :: r =>
    if c = quoteChar then
      let name := r.takeWhile (fun d => d ≠ quoteChar)
      match r.dropWhile (fun d => d ≠ quoteChar) with
      | q :: r2 => if q = quoteChar then some (String.mk name, r2) else none
      | [] => none
    else none
  | [] => none

/-- A signed decimal number token inside the literal. -/
def parseNumTok (cs : List Char) : Option (ℚ × List Char) :=
  let core : List Char → Option (ℚ × List Char) := fun ds =>
    let intPart := ds.takeWhile Char.isDigit
    let rest := ds.dropWhile Char.isDigit
    match rest with
    | c :: fr =>
      if c = '.' then
        let frac := fr.takeWhile Char.isDigit
        if intPart.isEmpty && frac.isEmpty then none
        else
          some ((digitsToNat intPart : ℚ) + (digitsToNat frac : ℚ) / (10 : ℚ) ^ frac.length,
            fr.dropWhile Char.isDigit)
      else if intPart.isEmpty then none else some ((digitsToNat intPart : ℚ), rest)
    | [] => if intPart.isEmpty then none else some ((digitsToNat intPart : ℚ), [])
  match cs with
  | '-' :: r => (core r).map (fun p => (-p.1, p.2))
  | '+' :: r => core r
  | _ => core cs

/-- One `('name', value)` pair. -/
def parsePair (cs : List Char) : Option ((String × ℚ) × List Char) :=
  match cs with
  | '(' :: r =>
    match parseQuoted (skipSpaces r) with
    | some (k, r1) =>
      match skipSpaces r1 with
      | ',' :: r2 =>
        match parseNumTok (skipSpaces r2) with
        | some (v, r3) =>
          match skipSpaces r3 with
          | ')' :: r4 => some ((k, v), r4)
          | _ => none
        | none => none
      | _ => none
    | none => none
  | _ => none

/-- Remaining pairs after the first: `(, pair)* ]`.  Fuel-indexed; each step
consumes at least one character. -/
def parsePairsRest : ℕ → List Char → List (String × ℚ) → Option (List (String × ℚ) × List Char)
  | 0, _, _ => none
  | fuel + 1, cs, acc =>
    match skipSpaces cs with
    | ']' :: r => some (acc.reverse, r)
    | ',' :: r =>
      match parsePair (skipSpaces r) with
      | some (p, r2) => parsePairsRest fuel r2 (p :: acc)
      | none => none
    | _ => none

/-- Model of `eval` of a whole `[('name', number), ...]` literal; `none` when the
payload is not such a literal. -/
def parsePairs (s : String) : Option (List (String × ℚ)) :=
  match skipSpaces s.data with
  | '[' :: r =>
    match skipSpaces r with
    | ']' :: r2 => if (skipSpaces r2).isEmpty then some [] else none
    | r2 =>
      match parsePair r2 with
      | some (p, r3) =>
        match parsePairsRest (r3.length + 1) r3 [p] with
        | some (ps, rest) => if (skipSpaces rest).isEmpty then some ps else none
        | none => none
      | none => none
  | _ => none

/-! ## `sorted` and `OrderedDict` over the pair list -/

/-- Python tuple comparison on `('name', value)` pairs: by name, then value.
String order in Lean is code-point lexicographic, as in Python. -/
def pairLe (p q : String × ℚ) : Prop := p.1 < q.1 ∨ (p.1 = q.1 ∧ p.2 ≤ q.2)

instance : DecidableRel pairLe := fun p q => by
  unfold pairLe; infer_instance

instance : IsTotal (String × ℚ) pairLe := by
  constructor
  intro a b
  rcases lt_trichotomy a.1 b.1 with h | h | h
  · exact Or.inl (Or.inl h)
  · rcases le_total a.2 b.2 with h2 | h2
    · exact Or.inl (Or.inr ⟨h, h2⟩)
    · exact Or.inr (Or.inr ⟨h.symm, h2⟩)
  · exact Or.inr (Or.inl h)

instance : IsTrans (String × ℚ) pairLe := by
  constructor
  intro a b c hab hbc
  rcases hab with h1 | ⟨h1, h1v⟩
  · rcases hbc with h2 | ⟨h2, _⟩
    · exact Or.inl (h1.trans h2)
    · exact Or.inl (h2 ▸ h1)
  · rcases hbc with h2 | ⟨h2, h2v⟩
    · exact Or.inl (h1 ▸ h2)
    · exact Or.inr ⟨h1.trans h2, h1v.trans h2v⟩

/-- Python `sorted` on the pair list. -/
def sortPairs (l : List (String × ℚ)) : List (String × ℚ) := List.insertionSort pairLe l

/-- One `OrderedDict` insertion: overwrite in place if the key is present,
otherwise append. -/
def odInsert : List (String × ℚ) → String × ℚ → List (String × ℚ)
  | [], p => [p]
  | q :: qs, p => if q.1 = p.1 then (q.1, p.2) :: qs else q :: odInsert qs p

/-- Model of `OrderedDict(pairs)` as an ordered association list. -/
def orderedDict (l : List (String × ℚ)) : List (String × ℚ) := l.foldl odInsert []

/-! ## `pd.to_datetime(s, format='%Y%m%d')` -/

/-- A calendar date.  The parse format `%Y%m%d` carries no time-of-day
component, so neither does this type. -/
structure DateV where
  year : ℕ
  month : ℕ
  day : ℕ
deriving DecidableEq, Repr

/-- Model of `%Y`: exactly four digits (CPython `_strptime` regex `\d\d\d\d`). -/
def parse4Digits (cs : List Char) : Option (ℕ × List Char) :=
  match cs with
  | a :: b :: c :: d :: rest =>
    if a.isDigit && b.isDigit && c.isDigit && d.isDigit then
      some (digitsToNat [a, b, c, d], rest)
    else none
  | _ => none

/-- Model of `%m` alternatives `1[0-2] | 0[1-9] | [1-9]`, in regex order. -/
def monthCands : List Char → List (ℕ × List Char)
  | a :: b :: rest =>
    (if a = '1' && ('0' ≤ b && b ≤ '2') then [(10 + digitVal b, rest)] else []) ++
    (if a = '0' && ('1' ≤ b && b ≤ '9') then [(digitVal b, rest)] else []) ++
    (if '1' ≤ a && a ≤ '9' then [(digitVal a, b :: rest)] else [])
  | [a] => if '1' ≤ a && a ≤ '9' then [(digitVal a, [])] else []
  | [] => []

/-- Model of `%d` alternatives `3[01] | [12]\d | 0[1-9] | [1-9]`, in regex order. -/
def dayCands : List Char → List (ℕ × List Char)
  | a :: b :: rest =>
    (if a = '3' && ('0' ≤ b && b ≤ '1') then [(30 + digitVal b, rest)] else []) ++
    (if (a = '1' || a = '2') && b.isDigit then [(10 * digitVal a + digitVal b, rest)] else []) ++
    (if a = '0' && ('1' ≤ b && b ≤ '9') then [(digitVal b, rest)] else []) ++
    (if '1' ≤ a && a ≤ '9' then [(digitVal a, b :: rest)] else [])
  | [a] => if '1' ≤ a && a ≤ '9' then [(digitVal a, [])] else []
  | [] => []

/-- Model of `datetime.strptime(s, '%Y%m%d')` up to range validation: the regex match
with backtracking over the `%m`/`%d` alternatives, requiring the whole
string to be consumed (`unconverted data remains` otherwise). -/
def strptimeYmd (s : String) : Option (ℕ × ℕ × ℕ) :=
  match parse4Digits s.data with
  | none => none
  | some (y, r0) =>
    (monthCands r0).findSome? fun mc =>
      (dayCands mc.2).findSome? fun dc =>
        if dc.2.isEmpty then some (y, mc.1, dc.1) else none

def isLeap (y : ℕ) : Bool := (y % 4 = 0 && ¬ y % 100 = 0) || y % 400 = 0

def daysInMonth (y m : ℕ) : ℕ :=
  if m = 2 then (if isLeap y then 29 else 28)
  else if m = 4 ∨ m = 6 ∨ m = 9 ∨ m = 11 then 30
  else 31

/-- Model of `pd.to_datetime(s, format='%Y%m%d')`: strptime, then the `datetime`
day-of-month check, then the pandas `Timestamp` bounds (the nanosecond
range 1677-09-21 … 2262-04-11, approximated here to the whole years
1678 … 2261; no input considered in this development is near the bound). -/
def toDatetimeYmd (s : String) : Option DateV :=
  match strptimeYmd s with
  | none => none
  | some (y, m, d) =>
    if d ≤ daysInMonth y m ∧ 1678 ≤ y ∧ y ≤ 2261 then some ⟨y, m, d⟩ else none

/-- The date extraction of `_parse_maqt_log` line 158:
`pd.to_datetime(line[10:18], format='%Y%m%d')`. -/
def extractDate (line : String) : Option DateV := toDatetimeYmd (pySlice line 10 18)

example : extractDate (String.mk (("L1C_AB_CD_20200101".data) ++ ['\n'])) = some ⟨2020, 1, 1⟩ := by
  decide

example : pyFloat " 45.0" = some 45 := by with_unfolding_all decide

example : pyFloat "0.3" = some (3 / 10) := by with_unfolding_all decide

/-! ## The line classifiers (regex triggers of `Log.__init__`) -/

/-- Model of `regex_maqt_date = "^L1C"`. -/
def trigDate (l : String) : Bool := beginsWith ("L1C".data) l.data

/-- Model of `regex_maqt_rh = "^average"`. -/
def trigRh (l : String) : Bool := beginsWith ("average".data) l.data

/-- Model of `regex_maqt_cams_proportions = "^temporalInterpProps"`. -/
def trigProps (l : String) : Bool := beginsWith ("temporalInterpProps".data) l.data

/-- Model of `regex_maqt_cloud_fraction`: the escaped-parenthesis pattern is the
literal substring `couverture nuageuse (avec ombres)`. -/
def trigCloud (l : String) : Bool := occursIn ("couverture nuageuse (avec ombres)".data) l.data

/-- Model of `regex_maqt_cirrus_fraction = "taux de cirrus"`. -/
def trigCirrus (l : String) : Bool := occursIn ("taux de cirrus".data) l.data

/-- Model of `regex_maqt_ozone = "ozone"`. -/
def trigOzone (l : String) : Bool := occursIn ("ozone".data) l.data

/-- Model of `regex_maqt_prev_aot = "prev AOT"`. -/
def trigPrevAot (l : String) : Bool := occursIn ("prev AOT".data) l.data

/-- Model of `regex_maqt_next_aot = "next AOT"`. -/
def trigNextAot (l : String) : Bool := occursIn ("next AOT".data) l.data

/-- Model of `regex_maqt_weight_prev_cams_date = "weightPrevCAMSdate"`. -/
def trigWPrev (l : String) : Bool := occursIn ("weightPrevCAMSdate".data) l.data

/-- Model of `regex_maqt_weight_next_cams_date = "weightNextCAMSdate"`. -/
def trigWNext (l : String) : Bool := occursIn ("weightNextCAMSdate".data) l.data

/-! ## Run-failure kinds

Python exception kinds that can abort the run.  None of them is caught by
the source except `FileNotFoundError` (in `_get_file_text`) and
`UnboundLocalError` (in `_building_maqt_dataframe`). -/

inductive Crash where
  /-- Model of `ValueError` from `float`/`eval`/`to_datetime` on a malformed payload. -/
  | malformedField : Crash
  /-- Model of `IndexError` from `split(...)[i]` with too few tokens. -/
  | indexError : Crash
  /-- Model of `UnboundLocalError`: `props_arr` referenced before assignment. -/
  | unboundLocalPropsArr : Crash
  /-- Model of `ValueError` from a numpy/pandas shape mismatch. -/
  | shapeError : Crash
  /-- Model of an `OSError` other than `FileNotFoundError` raised by `open`
  (e.g. `PermissionError`, `IsADirectoryError`): `_get_file_text` catches
  only `FileNotFoundError`, so these escape uncaught. -/
  | osError : Crash
deriving DecidableEq, Repr

/-! ## The field extractors -/

/-- Model of `_extract_float_from_text(text, pos, sep=sep)`:
`float(text.split(sep)[pos])`. -/
def extractFloatSep (text : String) (pos : ℕ) (sep : String) : Except Crash ℚ :=
  match splitIdx text sep pos with
  | none => .error .indexError
  | some t =>
    match pyFloat t with
    | some v => .ok v
    | none => .error .malformedField

/-- Model of `_extract_float_from_text(text, pos, upto=True)`: `float(text[pos:])`. -/
def extractFloatUpto (text : String) (pos : ℕ) : Except Crash ℚ :=
  match pyFloat (pySliceFrom text pos) with
  | some v => .ok v
  | none => .error .malformedField

/-- The percent token of a cloud-fraction line:
`float(line.split(':')[2].strip('%\n'))` (line 178). -/
def cloudPercent (line : String) : Except Crash ℚ :=
  match splitIdx line ":" 2 with
  | none => .error .indexError
  | some t =>
    match pyFloat (pyStripSet ['%', '\n'] t) with
    | some v => .ok v
    | none => .error .malformedField

/-- The stored cloud fraction: the percent token divided by 100. -/
def cloudFraction (line : String) : Except Crash ℚ :=
  match cloudPercent line with
  | .ok v => .ok (v / 100)
  | .error e => .error e

/-- Model of `OrderedDict(sorted(eval(line.split(':')[1])))`, shared by the
aerosol-proportion and prev/next-AOT extractors. -/
def ordPairsOf (line : String) : Except Crash (List (String × ℚ)) :=
  match splitIdx line ":" 1 with
  | none => .error .indexError
  | some payload =>
    match parsePairs payload with
    | some ps => .ok (orderedDict (sortPairs ps))
    | none => .error .malformedField

/-- The raw pair list of a proportion-style payload (before sorting),
used to state properties about "the first proportion line". -/
def propsPairsOf (line : String) : Option (List (String × ℚ)) :=
  match splitIdx line ":" 1 with
  | some payload => parsePairs payload
  | none => none

/-! ## The accumulator state of `_parse_maqt_log` -/

/-- The aerosol-proportion accumulator `props_arr`: a 1-D numpy array after
the first proportion line, a 2-D array after `np.vstack`. -/
inductive NpProps where
  | one (row : List ℚ) : NpProps
  | many (rows : List (List ℚ)) : NpProps
deriving DecidableEq, Repr

/-- Model of `np.vstack((arr, v))` for a new 1-D row `v`: both operands are promoted
to 2-D; the row lengths must agree, else `ValueError`. -/
def vstack : NpProps → List ℚ → Option NpProps
  | .one r, v => if v.length = r.length then some (.many [r, v]) else none
  | .many rs, v =>
    match rs.head? with
    | some r0 => if v.length = r0.length then some (.many (rs ++ [v])) else none
    | none => none

/-- The local accumulators of `_parse_maqt_log` (lines 144-153).  `props_arr`
starts out unassigned, which `Option` records. -/
structure LogAcc where
  dates : List DateV
  rh : List ℚ
  propsList : List String
  propsArr : Option NpProps
  cloud : List ℚ
  cirrus : List ℚ
  ozone : List ℚ
  wPrev : List ℚ
  wNext : List ℚ
  prevAot : List ℚ
  nextAot : List ℚ
deriving DecidableEq, Repr

def initAcc : LogAcc := ⟨[], [], [], none, [], [], [], [], [], [], []⟩

/-! ## One line through every extractor

The source tests every pattern independently on each line (`if`, not
`elif`); the model applies the ten extractors in source order. -/

/-- Date extractor (lines 157-158). -/
def stepDate (a : LogAcc) (l : String) : Except Crash LogAcc :=
  if trigDate l then
    match extractDate l with
    | some d => .ok { a with dates := a.dates ++ [d] }
    | none => .error .malformedField
  else .ok a

/-- Relative-humidity extractor (lines 161-162): `float(line.split(':')[1])`. -/
def stepRh (a : LogAcc) (l : String) : Except Crash LogAcc :=
  if trigRh l then
    match extractFloatSep l 1 ":" with
    | .ok v => .ok { a with rh := a.rh ++ [v] }
    | .error e => .error e
  else .ok a

/-- Aerosol-proportion extractor (lines 165-174).  The first proportion line
fixes `props_list` and initialises `props_arr` as a 1-D array; later lines
`vstack` their values.  The `else` branch referencing an unassigned
`props_arr` is the situation the source comment at lines 171-173 mentions. -/
def stepProps (a : LogAcc) (l : String) : Except Crash LogAcc :=
  if trigProps l then
    match ordPairsOf l with
    | .error e => .error e
    | .ok od =>
      if a.propsList.isEmpty then
        .ok { a with propsList := od.map Prod.fst, propsArr := some (.one (od.map Prod.snd)) }
      else
        match a.propsArr with
        | none => .error .unboundLocalPropsArr
        | some arr =>
          match vstack arr (od.map Prod.snd) with
          | some arr2 => .ok { a with propsArr := some arr2 }
          | none => .error .shapeError
  else .ok a

/-- Cloud-fraction extractor (lines 177-178). -/
def stepCloud (a : LogAcc) (l : String) : Except Crash LogAcc :=
  if trigCloud l then
    match cloudFraction l with
    | .ok v => .ok { a with cloud := a.cloud ++ [v] }
    | .error e => .error e
  else .ok a

/-- Cirrus-fraction extractor (lines 181-182): `float(line[14:])`. -/
def stepCirrus (a : LogAcc) (l : String) : Except Crash LogAcc :=
  if trigCirrus l then
    match extractFloatUpto l 14 with
    | .ok v => .ok { a with cirrus := a.cirrus ++ [v] }
    | .error e => .error e
  else .ok a

/-- Ozone extractor (lines 185-186): `float(line.split('=')[1])`. -/
def stepOzone (a : LogAcc) (l : String) : Except Crash LogAcc :=
  if trigOzone l then
    match extractFloatSep l 1 "=" with
    | .ok v => .ok { a with ozone := a.ozone ++ [v] }
    | .error e => .error e
  else .ok a

/-- Previous-CAMS-weight extractor (lines 189-190). -/
def stepWPrev (a : LogAcc) (l : String) : Except Crash LogAcc :=
  if trigWPrev l then
    match extractFloatSep l 1 ":" with
    | .ok v => .ok { a with wPrev := a.wPrev ++ [v] }
    | .error e => .error e
  else .ok a

/-- Next-CAMS-weight extractor (lines 193-194). -/
def stepWNext (a : LogAcc) (l : String) : Except Crash LogAcc :=
  if trigWNext l then
    match extractFloatSep l 1 ":" with
    | .ok v => .ok { a with wNext := a.wNext ++ [v] }
    | .error e => .error e
  else .ok a

/-- Previous-CAMS-AOT extractor (lines 197-199): the dict values are summed
(`np.array(list(...)).sum()`; the sum of an empty array is 0, as in numpy). -/
def stepPrevAot (a : LogAcc) (l : String) : Except Crash LogAcc :=
  if trigPrevAot l then
    match ordPairsOf l with
    | .ok od => .ok { a with prevAot := a.prevAot ++ [(od.map Prod.snd).sum] }
    | .error e => .error e
  else .ok a

/-- Next-CAMS-AOT extractor (lines 202-204). -/
def stepNextAot (a : LogAcc) (l : String) : Except Crash LogAcc :=
  if trigNextAot l then
    match ordPairsOf l with
    | .ok od => .ok { a with nextAot := a.nextAot ++ [(od.map Prod.snd).sum] }
    | .error e => .error e
  else .ok a

/-- All ten extractors on one line, in source order. -/
def step (a : LogAcc) (l : String) : Except Crash LogAcc :=
  match stepDate a l with
  | .error e => .error e
  | .ok a1 =>
  match stepRh a1 l with
  | .error e => .error e
  | .ok a2 =>
  match stepProps a2 l with
  | .error e => .error e
  | .ok a3 =>
  match stepCloud a3 l with
  | .error e => .error e
  | .ok a4 =>
  match stepCirrus a4 l with
  | .error e => .error e
  | .ok a5 =>
  match stepOzone a5 l with
  | .error e => .error e
  | .ok a6 =>
  match stepWPrev a6 l with
  | .error e => .error e
  | .ok a7 =>
  match stepWNext a7 l with
  | .error e => .error e
  | .ok a8 =>
  match stepPrevAot a8 l with
  | .error e => .error e
  | .ok a9 => stepNextAot a9 l

/-- The line loop of `_parse_maqt_log` (lines 155-204). -/
def parseGo : LogAcc → List String → Except Crash LogAcc
  | a, [] => .ok a
  | a, l :: ls =>
    match step a l with
    | .ok a2 => parseGo a2 ls
    | .error e => .error e

/-- Model of `_parse_maqt_log` (lines 143-207).  The `return` statement at lines
206-207 references `props_arr`; when no proportion line was ever seen that
reference raises `UnboundLocalError` — inside `_parse_maqt_log`, before any
table assembly. -/
def _parse_maqt_log (raw : List String) : Except Crash LogAcc :=
  match parseGo initAcc raw with
  | .ok a => if a.propsArr.isNone then .error .unboundLocalPropsArr else .ok a
  | .error e => .error e

/-! ## `_interpolate_total_aot`: numpy element-wise arithmetic -/

/-- A numpy binary operation on two 1-D arrays: element-wise when the
lengths agree, broadcasting when one operand has length one, and a
shape `ValueError` (`none`) otherwise. -/
def broadcastBin (f : ℚ → ℚ → ℚ) (xs ys : List ℚ) : Option (List ℚ) :=
  if xs.length = ys.length then some (List.zipWith f xs ys)
  else if xs.length = 1 then some (ys.map fun y => f (xs.headD 0) y)
  else if ys.length = 1 then some (xs.map fun x => f x (ys.headD 0))
  else none

/-- Model of `_interpolate_total_aot` (lines 137-141):
`np.array(wPrev) * np.array(prevAot) + np.array(wNext) * np.array(nextAot)`. -/
def _interpolate_total_aot (wPrev prevAot wNext nextAot : List ℚ) : Option (List ℚ) :=
  match broadcastBin (· * ·) wPrev prevAot, broadcastBin (· * ·) wNext nextAot with
  | some a, some b => broadcastBin (· + ·) a b
  | _, _ => none

/-! ## `_building_maqt_dataframe`: the Record Table -/

/-- The assembled Record Table: the scalar columns of the main `DataFrame`
plus the aerosol-proportion columns concatenated on axis 1. -/
structure RecordTable where
  dates : List DateV
  rh : List ℚ
  cloud : List ℚ
  cirrus : List ℚ
  ozone : List ℚ
  wPrev : List ℚ
  wNext : List ℚ
  prevAot : List ℚ
  nextAot : List ℚ
  totalAot : List ℚ
  aeroCols : List String
  aeroRows : List (List ℚ)
deriving DecidableEq, Repr

/-- Model of `pd.concat(axis=1)` outer-joins the row indexes, so the row count of the
table is the larger of the two frame heights. -/
def RecordTable.nrows (t : RecordTable) : ℕ := max t.dates.length t.aeroRows.length

/-- Model of `pd.DataFrame(props_arr, columns=props_list)` (line 103).  A 1-D array
is a single column of `len(arr)` rows, so it needs exactly one column name;
a 2-D array needs as many column names as its row width. -/
def propsFrame : NpProps → List String → Option (List (List ℚ))
  | .one row, cols => if cols.length = 1 then some (row.map fun x => [x]) else none
  | .many rows, cols =>
    match rows.head? with
    | some r0 => if r0.length = cols.length then some rows else none
    | none => none

/-- Model of `_building_maqt_dataframe` (lines 90-110).  The dict-of-lists
`DataFrame` constructor requires all ten lists to have one common length
(`ValueError` otherwise); the proportion frame is built from `props_arr`
and concatenated on axis 1.  The `except UnboundLocalError` handler of the
source guards only this body, in which every name is an already-bound
attribute, so the handler is unreachable. -/
def _building_maqt_dataframe (a : LogAcc) (tot : List ℚ) : Except Crash RecordTable :=
  let n := a.dates.length
  if a.rh.length = n ∧ a.cloud.length = n ∧ a.cirrus.length = n ∧ a.ozone.length = n ∧
      a.wPrev.length = n ∧ a.wNext.length = n ∧ a.prevAot.length = n ∧
      a.nextAot.length = n ∧ tot.length = n then
    match a.propsArr with
    | none => .error .unboundLocalPropsArr
    | some arr =>
      match propsFrame arr a.propsList with
      | some rows =>
        .ok ⟨a.dates, a.rh, a.cloud, a.cirrus, a.ozone, a.wPrev, a.wNext,
             a.prevAot, a.nextAot, tot, a.propsList, rows⟩
      | none => .error .shapeError
  else .error .shapeError

/-- The parse-interpolate-assemble pipeline of `Log.__init__` (lines 77-84). -/
def buildTable (raw : List String) : Except Crash RecordTable :=
  match _parse_maqt_log raw with
  | .error e => .error e
  | .ok a =>
    match _interpolate_total_aot a.wPrev a.prevAot a.wNext a.nextAot with
    | none => .error .shapeError
    | some tot => _building_maqt_dataframe a tot

/-! ## The whole run (`main`, `_get_file_text`, the artifact writers) -/

/-- The observable outcome of one invocation: the process exit code, the
diagnostics the program itself prints, the artifact files written, and the
unhandled exception (Python prints its traceback and exits with status 1)
if one escaped. -/
structure RunOut where
  exitCode : ℕ
  printed : List String
  artifacts : List String
  uncaught : Option Crash
deriving DecidableEq, Repr

/-- Model of `filename.split('/')[-1]` of `_get_file_text` (line 126). -/
def basenameOf (f : String) : String := (f.splitOn "/").getLastD f

/-- What the file system holds at a path, as seen by `open(filename, 'r')`:
no entry at all (`open` raises `FileNotFoundError`), an entry that cannot
be read as a text file (`open`/`readlines` raises another `OSError`, such
as `PermissionError` or `IsADirectoryError`), or a readable file with its
`readlines` content. -/
inductive FsEntry where
  | absent : FsEntry
  | unreadable : FsEntry
  | file (lines : List String) : FsEntry
deriving DecidableEq, Repr

/-- One full run of `main` over an abstract file system.  A path with no
entry takes the `FileNotFoundError` branch of `_get_file_text`
(lines 133-135): a printed message and `sys.exit(1)`, before any artifact
is produced.  A path that exists but is not readable raises an `OSError`
the `except FileNotFoundError` clause does not match, so it escapes as an
uncaught traceback: exit status 1 with nothing printed by the program.  On
success the three artifact files of `plot_aerosols`, `plot_clouds` and
`save_table` are written and `main` exits 0. -/
def run (fs : String → FsEntry) (file : String) : RunOut :=
  match fs file with
  | .absent => ⟨1, ["ERROR: file " ++ file ++ " not found..."], [], none⟩
  | .unreadable => ⟨1, [], [], some .osError⟩
  | .file raw =>
    match buildTable raw with
    | .error e => ⟨1, [], [], some e⟩
    | .ok _ =>
      let base := pyDropLast (basenameOf file) 4
      ⟨0, ["INFO: Done..."],
        [base ++ "_aerosols.png", base ++ "_clouds.png", base ++ "_table.csv"], none⟩

/-! ## Concrete log lines used by the scenario claims -/

/-- The apostrophe, as a string (Python quotes aerosol names with it). -/
def qm : String := String.mk [quoteChar]

def rhLine : String := "average:55.0\n"

def propsLine : String :=
  "temporalInterpProps:[(" ++ qm ++ "dust" ++ qm ++ ",0.3),(" ++ qm ++ "sea_salt" ++ qm ++ ",0.7)]\n"

def cloudLine : String := "MACCS: couverture nuageuse (avec ombres): 45.0%\n"

def cirrusLine : String := "taux de cirrus 0.05\n"

def ozoneLine : String := "ozone=0.02\n"

def wPrevLine : String := "weightPrevCAMSdate: 0.4\n"

def wNextLine : String := "weightNextCAMSdate: 0.6\n"

def prevAotLine : String :=
  "prev AOT: [(" ++ qm ++ "dust" ++ qm ++ ",0.04),(" ++ qm ++ "sea_salt" ++ qm ++ ",0.06)]\n"

def nextAotLine : String :=
  "next AOT: [(" ++ qm ++ "dust" ++ qm ++ ",0.08),(" ++ qm ++ "sea_salt" ++ qm ++ ",0.12)]\n"

/-- A date-marker line that carries the scenario date `20200101` at the
fixed character offset 10 the source reads (`line[10:18]`). -/
def dateLineOk : String := "L1C_AB_CD_20200101\n"

/-- The spec scenario's date-marker line taken literally: it starts with
`L1C_20200101`, so characters 10:18 are `01T10302` — not a date. -/
def dateLineLiteral : String := "L1C_20200101T103021\n"

/-- The spec's single-record scenario log (§8), with the date marker
adjusted so that the date substring sits at the offset the code reads. -/
def scenarioRaw : List String :=
  [dateLineOk, rhLine, propsLine, cloudLine, cirrusLine, ozoneLine,
   wPrevLine, wNextLine, prevAotLine, nextAotLine]

deriving instance DecidableEq for Except

def fsScenario : String → FsEntry := fun f =>
  if f = "scenario.log" then .file scenarioRaw else .absent

/-- A two-record log: every line of the scenario twice, second date 2020-01-02. -/
def dateLineOk2 : String := "L1C_AB_CD_20200102\n"

def twoRecordRaw : List String :=
  scenarioRaw ++ [dateLineOk2, rhLine, propsLine, cloudLine, cirrusLine, ozoneLine,
   wPrevLine, wNextLine, prevAotLine, nextAotLine]

/-! ## Lemmas about the numpy arithmetic -/

theorem broadcastBin_eq_len (f : ℚ → ℚ → ℚ) (xs ys : List ℚ) (h : xs.length = ys.length) :
    broadcastBin f xs ys = some (List.zipWith f xs ys) := by
  unfold broadcastBin; rw [if_pos h]

theorem getD_zipWith (f : ℚ → ℚ → ℚ) :
    ∀ (xs ys : List ℚ) (i : ℕ), i < (List.zipWith f xs ys).length →
      (List.zipWith f xs ys).getD i 0 = f (xs.getD i 0) (ys.getD i 0) := by
  intro xs
  induction xs with
  | nil => intro ys i h; simp at h
  | cons x xs ih =>
    intro ys i h
    cases ys with
    | nil => simp at h
    | cons y ys =>
      cases i with
      | zero => simp
      | succ n =>
        simp only [List.zipWith_cons_cons, List.getD_cons_succ]
        exact ih ys n (by simpa using h)

/-- Numpy 1-D broadcast compatibility of two lengths. -/
def bcCompat (n m : ℕ) : Prop := n = m ∨ n = 1 ∨ m = 1

/-- Result length of a broadcast binary operation. -/
def bcLen (n m : ℕ) : ℕ := if n = m then n else if n = 1 then m else n

theorem broadcastBin_isSome (f : ℚ → ℚ → ℚ) (xs ys : List ℚ) :
    (broadcastBin f xs ys).isSome = true ↔ bcCompat xs.length ys.length := by
  unfold broadcastBin bcCompat
  split
  next h => simp [h]
  next h =>
    split
    next h1 => simp [h1]
    next h1 =>
      split
      next h2 => simp [h2]
      next h2 => simp [h, h1, h2]

theorem broadcastBin_length (f : ℚ → ℚ → ℚ) (xs ys zs : List ℚ)
    (h : broadcastBin f xs ys = some zs) : zs.length = bcLen xs.length ys.length := by
  unfold broadcastBin at h
  unfold bcLen
  split at h
  next h0 =>
    rw [if_pos h0]
    cases h
    rw [List.length_zipWith, h0, Nat.min_self]
  next h0 =>
    rw [if_neg h0]
    split at h
    next h1 =>
      rw [if_pos h1]
      cases h
      exact List.length_map _ _
    next h1 =>
      rw [if_neg h1]
      split at h
      next h2 =>
        cases h
        exact List.length_map _ _
      next h2 => exact absurd h (by simp)

/-- Claim C3: for every row `i`, the derived column satisfies
`TotalAOT[i] = PrevWeight[i]*PrevAOT[i] + NextWeight[i]*NextAOT[i]`, as an
exact identity over the extracted equal-length sequences. -/
theorem totalAot_identity (wp pa wn na t : List ℚ)
    (h1 : wp.length = pa.length) (h2 : wn.length = na.length) (h3 : wp.length = wn.length)
    (ht : _interpolate_total_aot wp pa wn na = some t)
    (i : ℕ) (hi : i < t.length) :
    t.getD i 0 = wp.getD i 0 * pa.getD i 0 + wn.getD i 0 * na.getD i 0 := by
  unfold _interpolate_total_aot at ht
  simp only [broadcastBin_eq_len _ _ _ h1, broadcastBin_eq_len _ _ _ h2] at ht
  have hlen : (List.zipWith (· * ·) wp pa).length = (List.zipWith (· * ·) wn na).length := by
    rw [List.length_zipWith, List.length_zipWith, ← h1, ← h2, Nat.min_self, Nat.min_self]
    exact h3
  rw [broadcastBin_eq_len _ _ _ hlen] at ht
  have ht2 := Option.some.inj ht
  subst ht2
  have hiA : i < (List.zipWith (· * ·) wp pa).length := by
    rw [List.length_zipWith] at hi
    exact lt_of_lt_of_le hi (Nat.min_le_left _ _)
  have hiB : i < (List.zipWith (· * ·) wn na).length := by
    rw [List.length_zipWith] at hi
    exact lt_of_lt_of_le hi (Nat.min_le_right _ _)
  rw [getD_zipWith _ _ _ _ hi, getD_zipWith _ _ _ _ hiA, getD_zipWith _ _ _ _ hiB]

theorem totalAot_identity_witness :
    ([(4 : ℚ)/25]).getD 0 0 =
      ([(2 : ℚ)/5]).getD 0 0 * ([(1 : ℚ)/10]).getD 0 0 +
      ([(3 : ℚ)/5]).getD 0 0 * ([(1 : ℚ)/5]).getD 0 0 :=
  totalAot_identity [2/5] [1/10] [3/5] [1/5] [4/25] rfl rfl rfl
    (by with_unfolding_all decide) 0 (by decide)

/-- Claim C5, counterexample: the four sequences do not all have equal
length (`PrevWeight` has one entry, the others two), yet the derived-metric
computation succeeds by numpy broadcasting instead of raising a
shape-mismatch error. -/
theorem interpolate_broadcast_counterexample :
    _interpolate_total_aot [2] [1, 1] [1, 1] [1, 1] = some [3, 3] ∧
      ([2] : List ℚ).length ≠ ([1, 1] : List ℚ).length := by
  constructor
  · with_unfolding_all decide
  · decide

/-- Claim C5 as amended: the derived-metric computation succeeds exactly
when the four sequences are numpy-broadcast-compatible; a length mismatch
is fatal (shape `ValueError`) unless a mismatched operand has length one,
in which case that operand is broadcast across the longer sequence. -/
theorem interpolate_shape_amended (wp pa wn na : List ℚ) :
    (_interpolate_total_aot wp pa wn na).isSome = true ↔
      (bcCompat wp.length pa.length ∧ bcCompat wn.length na.length ∧
        bcCompat (bcLen wp.length pa.length) (bcLen wn.length na.length)) := by
  unfold _interpolate_total_aot
  cases hA : broadcastBin (· * ·) wp pa with
  | none =>
    have hc : ¬ bcCompat wp.length pa.length := by
      rw [← broadcastBin_isSome (· * ·) wp pa, hA]
      simp
    simp [hc]
  | some a =>
    cases hB : broadcastBin (· * ·) wn na with
    | none =>
      have hc : ¬ bcCompat wn.length na.length := by
        rw [← broadcastBin_isSome (· * ·) wn na, hB]
        simp
      simp [hc]
    | some b =>
      have h1 : bcCompat wp.length pa.length := by
        rw [← broadcastBin_isSome (· * ·) wp pa, hA]; rfl
      have h2 : bcCompat wn.length na.length := by
        rw [← broadcastBin_isSome (· * ·) wn na, hB]; rfl
      have ha := broadcastBin_length _ _ _ _ hA
      have hb := broadcastBin_length _ _ _ _ hB
      rw [broadcastBin_isSome, ha, hb]
      simp [h1, h2]

/-- Claim C6: parsing is deterministic — two parser runs over identical
input lines yield identical accumulators and identical Record Tables. -/
theorem parse_deterministic (raw1 raw2 : List String) (h : raw1 = raw2) :
    _parse_maqt_log raw1 = _parse_maqt_log raw2 ∧ buildTable raw1 = buildTable raw2 := by
  rw [h]
  exact ⟨rfl, rfl⟩

theorem parse_deterministic_witness :
    _parse_maqt_log twoRecordRaw = _parse_maqt_log twoRecordRaw ∧
      buildTable twoRecordRaw = buildTable twoRecordRaw :=
  parse_deterministic twoRecordRaw twoRecordRaw rfl

/-- Claim C7: on a cloud-fraction line whose percent token parses to a
number in `[0, 100]`, the stored value (token stripped of a trailing
percent sign, divided by 100) lies in `[0, 1]`. -/
theorem cloud_fraction_in_unit (line : String) (p : ℚ)
    (htrig : trigCloud line = true)
    (hp : cloudPercent line = .ok p) (h0 : 0 ≤ p) (h1 : p ≤ 100) :
    cloudFraction line = .ok (p / 100) ∧ 0 ≤ p / 100 ∧ p / 100 ≤ 1 := by
  refine ⟨?_, ?_, ?_⟩
  · unfold cloudFraction
    rw [hp]
  · exact div_nonneg h0 (by norm_num)
  · rw [div_le_one (by norm_num : (0 : ℚ) < 100)]
    exact h1

theorem cloud_fraction_in_unit_witness :
    cloudFraction cloudLine = .ok ((45 : ℚ) / 100) ∧
      0 ≤ (45 : ℚ) / 100 ∧ (45 : ℚ) / 100 ≤ 1 :=
  cloud_fraction_in_unit cloudLine 45 (by decide) (by with_unfolding_all decide)
    (by norm_num) (by norm_num)

/-- A file system with one entry that exists but cannot be read (for
example a permission-denied file or a directory). -/
def fsLocked : String → FsEntry := fun f =>
  if f = "locked.log" then .unreadable else .absent

/-- Claim C8, counterexample: the path `locked.log` does not resolve to a
readable file (its entry exists but cannot be read), yet the run prints no
message at all — `_get_file_text` catches only `FileNotFoundError`, so the
`OSError` escapes as an uncaught traceback.  Exit status 1 and the absence
of artifacts do hold, but the claimed user-visible file-not-found
diagnostic is never printed. -/
theorem unreadable_file_no_message :
    run fsLocked "locked.log" = ⟨1, [], [], some Crash.osError⟩ ∧
      (run fsLocked "locked.log").printed = [] := by
  constructor <;> rfl

/-- Claim C8 as amended: for every input path with no file-system entry at
all (`open` raises `FileNotFoundError`), the run prints the user-visible
file-not-found message, terminates with exit code 1, and produces no
output artifact.  (A path that exists but is not readable instead dies
with an uncaught traceback, as the counterexample shows.) -/
theorem missing_file_run (fs : String → FsEntry) (file : String)
    (h : fs file = .absent) :
    run fs file = ⟨1, ["ERROR: file " ++ file ++ " not found..."], [], none⟩ := by
  unfold run
  rw [h]

theorem missing_file_run_witness :
    run (fun _ => .absent) "missing.log" =
      ⟨1, ["ERROR: file " ++ "missing.log" ++ " not found..."], [], none⟩ :=
  missing_file_run (fun _ => .absent) "missing.log" rfl

/-- Claim C10: the extracted calendar date of a date-marker line depends
only on characters 10 through 17 of the line, and (by the type of
`extractDate`, whose format `%Y%m%d` has no time directive) carries no
time-of-day component. -/
theorem date_depends_only_on_slice (l1 l2 : String)
    (h1 : trigDate l1 = true) (h2 : trigDate l2 = true)
    (hagree : pySlice l1 10 18 = pySlice l2 10 18) :
    extractDate l1 = extractDate l2 := by
  unfold extractDate
  rw [hagree]

theorem date_depends_only_on_slice_witness :
    extractDate "L1C_AB_CD_20200101T1030 something" =
      extractDate "L1C_XY_ZW_20200101 an entirely different tail" :=
  date_depends_only_on_slice _ _ (by decide) (by decide) (by decide)

/-! ## Lemmas about `sorted` and `OrderedDict` -/

theorem sortPairs_perm (l : List (String × ℚ)) : List.Perm (sortPairs l) l :=
  List.perm_insertionSort pairLe l

theorem sortPairs_sorted (l : List (String × ℚ)) : List.Sorted pairLe (sortPairs l) :=
  List.sorted_insertionSort pairLe l

theorem sortPairs_ne_nil (l : List (String × ℚ)) (h : l ≠ []) : sortPairs l ≠ [] := by
  intro hc
  have hlen := (sortPairs_perm l).length_eq
  rw [hc] at hlen
  exact h (List.length_eq_zero.mp hlen.symm)

theorem sortPairs_keys_nodup (l : List (String × ℚ)) (h : (l.map Prod.fst).Nodup) :
    ((sortPairs l).map Prod.fst).Nodup :=
  (((sortPairs_perm l).map Prod.fst).nodup_iff).mpr h

theorem sortPairs_keys_sorted (l : List (String × ℚ)) (h : (l.map Prod.fst).Nodup) :
    ((sortPairs l).map Prod.fst).Pairwise (· < ·) := by
  have hs : (sortPairs l).Pairwise pairLe := sortPairs_sorted l
  have hn : (sortPairs l).Pairwise (fun p q => p.1 ≠ q.1) :=
    (List.pairwise_map).mp (sortPairs_keys_nodup l h)
  rw [List.pairwise_map]
  exact (hs.and hn).imp (fun hpq => by
    rcases hpq with ⟨hle | ⟨heq, _⟩, hne⟩
    · exact hle
    · exact absurd heq hne)

theorem odInsert_ne_nil (l : List (String × ℚ)) (p : String × ℚ) : odInsert l p ≠ [] := by
  cases l with
  | nil => simp [odInsert]
  | cons q qs =>
    unfold odInsert
    split <;> simp

theorem odInsert_notMem (l : List (String × ℚ)) (p : String × ℚ)
    (h : p.1 ∉ l.map Prod.fst) : odInsert l p = l ++ [p] := by
  induction l with
  | nil => rfl
  | cons q qs ih =>
    simp only [List.map_cons, List.mem_cons] at h
    push_neg at h
    unfold odInsert
    rw [if_neg (fun he => h.1 he.symm), ih h.2]
    simp

theorem foldl_odInsert_nodup : ∀ (l acc : List (String × ℚ)),
    (((acc ++ l).map Prod.fst).Nodup) → l.foldl odInsert acc = acc ++ l := by
  intro l
  induction l with
  | nil => intro acc _; simp
  | cons p l ih =>
    intro acc h
    have h2 : ((acc ++ [p]) ++ l).map Prod.fst = (acc ++ p :: l).map Prod.fst := by
      simp
    have hmem : p.1 ∉ acc.map Prod.fst := by
      intro hc
      rw [List.map_append] at h
      have hdisj := (List.nodup_append.mp h).2.2
      exact hdisj hc (by simp)
    simp only [List.foldl_cons]
    rw [odInsert_notMem acc p hmem, ih (acc ++ [p]) (by rw [h2]; exact h)]
    simp

theorem orderedDict_nodup (l : List (String × ℚ)) (h : (l.map Prod.fst).Nodup) :
    orderedDict l = l := by
  unfold orderedDict
  have := foldl_odInsert_nodup l [] (by simpa using h)
  simpa using this

theorem foldl_odInsert_ne_nil : ∀ (l acc : List (String × ℚ)), acc ≠ [] →
    l.foldl odInsert acc ≠ [] := by
  intro l
  induction l with
  | nil => intro acc h; simpa
  | cons p l ih =>
    intro acc h
    simp only [List.foldl_cons]
    exact ih _ (odInsert_ne_nil acc p)

theorem orderedDict_ne_nil (l : List (String × ℚ)) (h : l ≠ []) : orderedDict l ≠ [] := by
  cases l with
  | nil => exact absurd rfl h
  | cons p l =>
    unfold orderedDict
    simp only [List.foldl_cons]
    exact foldl_odInsert_ne_nil l (odInsert [] p) (odInsert_ne_nil [] p)

/-! ## Invariants of the proportion accumulator -/

/-- Row count of a numpy proportion array (a 1-D array is one stacked row
from the parser's point of view). -/
def npRows : NpProps → ℕ
  | .one _ => 1
  | .many rs => rs.length

/-- Row count of the possibly-unassigned `props_arr`. -/
def rowCount : Option NpProps → ℕ
  | none => 0
  | some arr => npRows arr

/-- Every stacked row has length `n` (and a 2-D array is non-empty). -/
def rowsLenOk : NpProps → ℕ → Prop
  | .one r, n => r.length = n
  | .many rs, n => rs ≠ [] ∧ ∀ r ∈ rs, r.length = n

/-- The invariant the parser maintains on `props_list`/`props_arr`:
both are assigned together, and every stacked row is as wide as the
column list. -/
def accInv (a : LogAcc) : Prop :=
  (a.propsList = [] → a.propsArr = none) ∧
  (∀ arr, a.propsArr = some arr → rowsLenOk arr a.propsList.length)

theorem vstack_spec (arr arr2 : NpProps) (v : List ℚ) (n : ℕ)
    (hlen : rowsLenOk arr n) (h : vstack arr v = some arr2) :
    npRows arr2 = npRows arr + 1 ∧ rowsLenOk arr2 n := by
  cases arr with
  | one r =>
    have hlen2 : r.length = n := hlen
    rw [show vstack (.one r) v = (if v.length = r.length then some (.many [r, v]) else none)
        from rfl] at h
    split at h
    next hv =>
      injection h with h
      subst h
      refine ⟨rfl, by simp, ?_⟩
      intro x hx
      simp only [List.mem_cons, List.not_mem_nil, or_false] at hx
      rcases hx with rfl | rfl
      · exact hlen2
      · exact hv.trans hlen2
    next hv => exact absurd h (by simp)
  | many rs =>
    cases rs with
    | nil => exact absurd h (by simp [vstack])
    | cons r0 rs2 =>
      have hlen2 : (r0 :: rs2) ≠ [] ∧ ∀ r ∈ r0 :: rs2, r.length = n := hlen
      rw [show vstack (.many (r0 :: rs2)) v =
          (if v.length = r0.length then some (.many ((r0 :: rs2) ++ [v])) else none)
        from rfl] at h
      split at h
      next hv =>
        injection h with h
        subst h
        obtain ⟨hne, hall⟩ := hlen2
        refine ⟨?_, ?_, ?_⟩
        · show ((r0 :: rs2) ++ [v]).length = (r0 :: rs2).length + 1
          simp
        · simp
        · intro x hx
          rw [List.mem_append] at hx
          rcases hx with hx | hx
          · exact hall x hx
          · simp only [List.mem_singleton] at hx
            subst hx
            exact hv.trans (hall r0 (by simp))
      next hv => exact absurd h (by simp)

theorem ordPairsOf_eq (l : String) (od : List (String × ℚ)) (h : ordPairsOf l = .ok od) :
    ∃ ps, propsPairsOf l = some ps ∧ od = orderedDict (sortPairs ps) := by
  unfold ordPairsOf at h
  split at h
  · exact absurd h (by simp)
  · rename_i payload heq
    split at h
    · rename_i ps hps
      injection h with h
      refine ⟨ps, ?_, h.symm⟩
      unfold propsPairsOf
      rw [heq]
      exact hps
    · exact absurd h (by simp)

/-! ## Field-preservation lemmas for the extractors -/

theorem stepRh_fields (a b : LogAcc) (l : String) (h : stepRh a l = .ok b) :
    b.dates = a.dates ∧ b.propsList = a.propsList ∧ b.propsArr = a.propsArr := by
  unfold stepRh at h
  split at h
  · split at h
    · injection h with h
      subst h
      exact ⟨rfl, rfl, rfl⟩
    · exact absurd h (by simp)
  · injection h with h
    subst h
    exact ⟨rfl, rfl, rfl⟩

theorem stepCloud_fields (a b : LogAcc) (l : String) (h : stepCloud a l = .ok b) :
    b.dates = a.dates ∧ b.propsList = a.propsList ∧ b.propsArr = a.propsArr := by
  unfold stepCloud at h
  split at h
  · split at h
    · injection h with h
      subst h
      exact ⟨rfl, rfl, rfl⟩
    · exact absurd h (by simp)
  · injection h with h
    subst h
    exact ⟨rfl, rfl, rfl⟩

theorem stepCirrus_fields (a b : LogAcc) (l : String) (h : stepCirrus a l = .ok b) :
    b.dates = a.dates ∧ b.propsList = a.propsList ∧ b.propsArr = a.propsArr := by
  unfold stepCirrus at h
  split at h
  · split at h
    · injection h with h
      subst h
      exact ⟨rfl, rfl, rfl⟩
    · exact absurd h (by simp)
  · injection h with h
    subst h
    exact ⟨rfl, rfl, rfl⟩

theorem stepOzone_fields (a b : LogAcc) (l : String) (h : stepOzone a l = .ok b) :
    b.dates = a.dates ∧ b.propsList = a.propsList ∧ b.propsArr = a.propsArr := by
  unfold stepOzone at h
  split at h
  · split at h
    · injection h with h
      subst h
      exact ⟨rfl, rfl, rfl⟩
    · exact absurd h (by simp)
  · injection h with h
    subst h
    exact ⟨rfl, rfl, rfl⟩

theorem stepWPrev_fields (a b : LogAcc) (l : String) (h : stepWPrev a l = .ok b) :
    b.dates = a.dates ∧ b.propsList = a.propsList ∧ b.propsArr = a.propsArr := by
  unfold stepWPrev at h
  split at h
  · split at h
    · injection h with h
      subst h
      exact ⟨rfl, rfl, rfl⟩
    · exact absurd h (by simp)
  · injection h with h
    subst h
    exact ⟨rfl, rfl, rfl⟩

theorem stepWNext_fields (a b : LogAcc) (l : String) (h : stepWNext a l = .ok b) :
    b.dates = a.dates ∧ b.propsList = a.propsList ∧ b.propsArr = a.propsArr := by
  unfold stepWNext at h
  split at h
  · split at h
    · injection h with h
      subst h
      exact ⟨rfl, rfl, rfl⟩
    · exact absurd h (by simp)
  · injection h with h
    subst h
    exact ⟨rfl, rfl, rfl⟩

theorem stepPrevAot_fields (a b : LogAcc) (l : String) (h : stepPrevAot a l = .ok b) :
    b.dates = a.dates ∧ b.propsList = a.propsList ∧ b.propsArr = a.propsArr := by
  unfold stepPrevAot at h
  split at h
  · split at h
    · injection h with h
      subst h
      exact ⟨rfl, rfl, rfl⟩
    · exact absurd h (by simp)
  · injection h with h
    subst h
    exact ⟨rfl, rfl, rfl⟩

theorem stepNextAot_fields (a b : LogAcc) (l : String) (h : stepNextAot a l = .ok b) :
    b.dates = a.dates ∧ b.propsList = a.propsList ∧ b.propsArr = a.propsArr := by
  unfold stepNextAot at h
  split at h
  · split at h
    · injection h with h
      subst h
      exact ⟨rfl, rfl, rfl⟩
    · exact absurd h (by simp)
  · injection h with h
    subst h
    exact ⟨rfl, rfl, rfl⟩

theorem stepDate_fields (a b : LogAcc) (l : String) (h : stepDate a l = .ok b) :
    b.propsList = a.propsList ∧ b.propsArr = a.propsArr ∧
      b.dates.length = a.dates.length + (if trigDate l then 1 else 0) := by
  unfold stepDate at h
  split at h
  next hc =>
    split at h
    · injection h with h
      subst h
      simp [hc]
    · exact absurd h (by simp)
  next hc =>
    injection h with h
    subst h
    simp [hc]

theorem stepProps_dates (a b : LogAcc) (l : String) (h : stepProps a l = .ok b) :
    b.dates = a.dates := by
  unfold stepProps at h
  split at h
  · split at h
    · exact absurd h (by simp)
    · split at h
      · injection h with h
        subst h
        rfl
      · split at h
        · exact absurd h (by simp)
        · split at h
          · injection h with h
            subst h
            rfl
          · exact absurd h (by simp)
  · injection h with h
    subst h
    rfl

theorem stepProps_not_trig (a : LogAcc) (l : String) (h : trigProps l = false) :
    stepProps a l = .ok a := by
  unfold stepProps
  rw [h]
  simp

theorem stepProps_invOk (a b : LogAcc) (l : String) (htrig : trigProps l = true)
    (h : stepProps a l = .ok b) :
    ∃ od, ordPairsOf l = .ok od ∧
      ((a.propsList = [] ∧
          b = { a with propsList := od.map Prod.fst, propsArr := some (.one (od.map Prod.snd)) }) ∨
       (a.propsList ≠ [] ∧ ∃ arr arr2, a.propsArr = some arr ∧
          vstack arr (od.map Prod.snd) = some arr2 ∧ b = { a with propsArr := some arr2 })) := by
  unfold stepProps at h
  rw [if_pos htrig] at h
  split at h
  · exact absurd h (by simp)
  · rename_i od hod
    split at h
    next hemp =>
      injection h with h
      exact ⟨od, hod, Or.inl ⟨List.isEmpty_iff.mp hemp, h.symm⟩⟩
    next hemp =>
      split at h
      · exact absurd h (by simp)
      · rename_i arr harr
        split at h
        · rename_i arr2 hv
          injection h with h
          refine ⟨od, hod, Or.inr ⟨?_, arr, arr2, harr, hv, h.symm⟩⟩
          intro hc
          exact hemp (List.isEmpty_iff.mpr hc)
        · exact absurd h (by simp)

/-! ## Decomposition of one full line step -/

theorem step_inv (a b : LogAcc) (l : String) (h : step a l = .ok b) :
    ∃ c1 c2 c3 c4 c5 c6 c7 c8 c9,
      stepDate a l = .ok c1 ∧ stepRh c1 l = .ok c2 ∧ stepProps c2 l = .ok c3 ∧
      stepCloud c3 l = .ok c4 ∧ stepCirrus c4 l = .ok c5 ∧ stepOzone c5 l = .ok c6 ∧
      stepWPrev c6 l = .ok c7 ∧ stepWNext c7 l = .ok c8 ∧ stepPrevAot c8 l = .ok c9 ∧
      stepNextAot c9 l = .ok b := by
  unfold step at h
  split at h
  · exact absurd h (by simp)
  rename_i c1 h1
  split at h
  · exact absurd h (by simp)
  rename_i c2 h2
  split at h
  · exact absurd h (by simp)
  rename_i c3 h3
  split at h
  · exact absurd h (by simp)
  rename_i c4 h4
  split at h
  · exact absurd h (by simp)
  rename_i c5 h5
  split at h
  · exact absurd h (by simp)
  rename_i c6 h6
  split at h
  · exact absurd h (by simp)
  rename_i c7 h7
  split at h
  · exact absurd h (by simp)
  rename_i c8 h8
  split at h
  · exact absurd h (by simp)
  rename_i c9 h9
  exact ⟨c1, c2, c3, c4, c5, c6, c7, c8, c9, h1, h2, h3, h4, h5, h6, h7, h8, h9, h⟩

/-- One line's effect on the date accumulator and the proportion state. -/
theorem step_spec (a b : LogAcc) (l : String) (h : step a l = .ok b) :
    b.dates.length = a.dates.length + (if trigDate l then 1 else 0) ∧
    (trigProps l = false → b.propsList = a.propsList ∧ b.propsArr = a.propsArr) ∧
    (trigProps l = true → ∃ od, ordPairsOf l = .ok od ∧
      ((a.propsList = [] ∧ b.propsList = od.map Prod.fst ∧
          b.propsArr = some (.one (od.map Prod.snd))) ∨
       (a.propsList ≠ [] ∧ b.propsList = a.propsList ∧ ∃ arr arr2, a.propsArr = some arr ∧
          vstack arr (od.map Prod.snd) = some arr2 ∧ b.propsArr = some arr2))) := by
  obtain ⟨c1, c2, c3, c4, c5, c6, c7, c8, c9, h1, h2, h3, h4, h5, h6, h7, h8, h9, h10⟩ :=
    step_inv a b l h
  obtain ⟨d1pl, d1pa, d1len⟩ := stepDate_fields _ _ _ h1
  obtain ⟨r2d, r2pl, r2pa⟩ := stepRh_fields _ _ _ h2
  have p3d := stepProps_dates _ _ _ h3
  obtain ⟨c4d, c4pl, c4pa⟩ := stepCloud_fields _ _ _ h4
  obtain ⟨c5d, c5pl, c5pa⟩ := stepCirrus_fields _ _ _ h5
  obtain ⟨c6d, c6pl, c6pa⟩ := stepOzone_fields _ _ _ h6
  obtain ⟨c7d, c7pl, c7pa⟩ := stepWPrev_fields _ _ _ h7
  obtain ⟨c8d, c8pl, c8pa⟩ := stepWNext_fields _ _ _ h8
  obtain ⟨c9d, c9pl, c9pa⟩ := stepPrevAot_fields _ _ _ h9
  obtain ⟨bd, bpl, bpa⟩ := stepNextAot_fields _ _ _ h10
  have hbdates : b.dates = c1.dates := by
    rw [bd, c9d, c8d, c7d, c6d, c5d, c4d, p3d, r2d]
  have hbpl : b.propsList = c3.propsList := by
    rw [bpl, c9pl, c8pl, c7pl, c6pl, c5pl, c4pl]
  have hbpa : b.propsArr = c3.propsArr := by
    rw [bpa, c9pa, c8pa, c7pa, c6pa, c5pa, c4pa]
  refine ⟨by rw [hbdates, d1len], ?_, ?_⟩
  · intro hf
    have h3e := stepProps_not_trig c2 l hf
    rw [h3e] at h3
    injection h3 with h3
    subst h3
    constructor
    · rw [hbpl, r2pl, d1pl]
    · rw [hbpa, r2pa, d1pa]
  · intro ht
    obtain ⟨od, hod, hcase⟩ := stepProps_invOk c2 c3 l ht h3
    refine ⟨od, hod, ?_⟩
    rcases hcase with ⟨hemp, heq⟩ | ⟨hne, arr, arr2, harr, hv, heq⟩
    · left
      refine ⟨by rw [← d1pl, ← r2pl]; exact hemp, ?_, ?_⟩
      · rw [hbpl, heq]
      · rw [hbpa, heq]
    · right
      refine ⟨by rw [← d1pl, ← r2pl]; exact hne, ?_, arr, arr2, ?_, hv, ?_⟩
      · rw [hbpl, heq]
        rw [r2pl, d1pl]
      · rw [r2pa, d1pa] at harr
        exact harr
      · rw [hbpa, heq]

/-! ## The parse loop -/

theorem parseGo_props_of_no_trig : ∀ (raw : List String) (a b : LogAcc),
    (∀ l ∈ raw, trigProps l = false) → parseGo a raw = .ok b →
    b.propsList = a.propsList ∧ b.propsArr = a.propsArr := by
  intro raw
  induction raw with
  | nil =>
    intro a b _ h
    unfold parseGo at h
    injection h with h
    subst h
    exact ⟨rfl, rfl⟩
  | cons l ls ih =>
    intro a b hall h
    unfold parseGo at h
    split at h
    · rename_i a1 hs
      have h2 := (step_spec _ _ _ hs).2.1 (hall l (by simp))
      have h3 := ih a1 b (fun x hx => hall x (by simp [hx])) h
      exact ⟨h3.1.trans h2.1, h3.2.trans h2.2⟩
    · exact absurd h (by simp)

/-- Claim C1 (as the code actually behaves): on an input log containing no
aerosol-proportion line, the run terminates with status 1 and produces no
artifact — but through an uncaught `UnboundLocalError` traceback raised at
the `return` of `_parse_maqt_log`, not through the user-visible
"doesn't seem to contain expected fields" diagnostic: that handler lives in
`_building_maqt_dataframe`, which is never reached, so nothing is printed
by the program (contradicting the source's own comment at lines 171-173
that the error "will be caught by the UnboundLocalError exception handler
later on"). -/
theorem no_props_line_crash (fs : String → FsEntry) (file : String)
    (raw : List String) (b : LogAcc)
    (hfs : fs file = .file raw)
    (hnp : ∀ l ∈ raw, trigProps l = false)
    (hok : parseGo initAcc raw = .ok b) :
    run fs file = ⟨1, [], [], some .unboundLocalPropsArr⟩ := by
  have hnone : b.propsArr = none := by
    rw [(parseGo_props_of_no_trig raw initAcc b hnp hok).2]
    rfl
  unfold run
  rw [hfs]
  dsimp only
  unfold buildTable _parse_maqt_log
  rw [hok]
  dsimp only
  rw [hnone]
  rfl

def fsNoProps : String → FsEntry := fun f =>
  if f = "maja.log" then .file ["hello world\n"] else .absent

theorem no_props_line_crash_witness :
    run fsNoProps "maja.log" = ⟨1, [], [], some .unboundLocalPropsArr⟩ :=
  no_props_line_crash fsNoProps "maja.log" ["hello world\n"] initAcc
    (by decide) (by decide) (by decide)

/-- Claim C9: the parser performs no key-set validation on proportion lines
after the first.  A later proportion line whose pair collection has as many
entries as the stacked rows is accepted: its values are stacked as a new
row under the unchanged first-line column names, with no condition on its
key names. -/
theorem later_props_no_key_check (a : LogAcc) (l : String)
    (od : List (String × ℚ)) (r0 : List ℚ) (rows : List (List ℚ))
    (htrig : trigProps l = true)
    (hod : ordPairsOf l = .ok od)
    (hne : a.propsList.isEmpty = false)
    (harr : a.propsArr = some (.many (r0 :: rows)))
    (hlen : od.length = r0.length) :
    stepProps a l = .ok { a with propsArr := some (.many ((r0 :: rows) ++ [od.map Prod.snd])) } := by
  unfold stepProps
  rw [if_pos htrig, hod, hne, harr]
  show (match vstack (.many (r0 :: rows)) (od.map Prod.snd) with
    | some arr2 => Except.ok { a with propsArr := some arr2 }
    | none => Except.error Crash.shapeError) = _
  rw [show vstack (.many (r0 :: rows)) (od.map Prod.snd) =
      (if (od.map Prod.snd).length = r0.length
        then some (.many ((r0 :: rows) ++ [od.map Prod.snd])) else none) from rfl]
  rw [if_pos (by rw [List.length_map]; exact hlen)]

def accC9 : LogAcc :=
  { initAcc with propsList := ["dust", "sea_salt"],
                 propsArr := some (.many [[3/10, 7/10], [1/2, 1/2]]) }

/-- A proportion line with two entries whose key names differ entirely from
the first line's columns. -/
def propsLineDiffKeys : String :=
  "temporalInterpProps:[(" ++ qm ++ "black_carbon" ++ qm ++ ",0.9),("
    ++ qm ++ "sulfate" ++ qm ++ ",0.1)]\n"

theorem later_props_no_key_check_witness :
    stepProps accC9 propsLineDiffKeys =
      .ok { accC9 with
            propsArr := some (.many ([[3/10, 7/10], [1/2, 1/2]] ++ [[9/10, 1/10]])) } :=
  later_props_no_key_check accC9 propsLineDiffKeys
    [("black_carbon", 9/10), ("sulfate", 1/10)] [3/10, 7/10] [[1/2, 1/2]]
    (by decide) (by with_unfolding_all decide) (by decide)
    (by with_unfolding_all decide) (by decide)

/-- Master invariant of the parse loop: successful runs keep `accInv`,
append one date per date-marker line, stack one proportion row per
proportion line, and fix the column list from the first proportion line. -/
theorem parseGo_spec : ∀ (raw : List String) (a b : LogAcc),
    parseGo a raw = .ok b → accInv a →
    (∀ l ∈ raw, trigProps l = true → propsPairsOf l ≠ some []) →
    accInv b ∧
    b.dates.length = a.dates.length + raw.countP trigDate ∧
    rowCount b.propsArr = rowCount a.propsArr + raw.countP trigProps ∧
    (a.propsList ≠ [] → b.propsList = a.propsList) ∧
    (a.propsList = [] → ∀ lf ps, raw.find? trigProps = some lf →
      propsPairsOf lf = some ps → b.propsList = (orderedDict (sortPairs ps)).map Prod.fst) := by
  intro raw
  induction raw with
  | nil =>
    intro a b h hInv _
    unfold parseGo at h
    injection h with h
    subst h
    refine ⟨hInv, by simp, by simp, fun _ => rfl, fun _ lf ps hfind _ => ?_⟩
    simp at hfind
  | cons l ls ih =>
    intro a b h hInv hgood
    unfold parseGo at h
    split at h
    · rename_i a1 hs
      obtain ⟨hdates, hnotrig, htrigok⟩ := step_spec _ _ _ hs
      by_cases ht : trigProps l = true
      · obtain ⟨od, hod, hcase⟩ := htrigok ht
        obtain ⟨ps0, hps0, hodeq⟩ := ordPairsOf_eq l od hod
        have hps0ne : ps0 ≠ [] := by
          intro hc
          subst hc
          exact (hgood l (by simp) ht) hps0
        have hodne : od ≠ [] := by
          rw [hodeq]
          exact orderedDict_ne_nil _ (sortPairs_ne_nil _ hps0ne)
        rcases hcase with ⟨hemp, hpl1, hpa1⟩ | ⟨hne, hpl1, arr, arr2, harr, hv, hpa1⟩
        · -- first proportion line: columns and the 1-D array are created
          have hodkeysne : od.map Prod.fst ≠ [] := by
            intro hc
            exact hodne (List.map_eq_nil_iff.mp hc)
          have hInv1 : accInv a1 := by
            constructor
            · intro hpl
              rw [hpl1] at hpl
              exact absurd hpl hodkeysne
            · intro arrx harrx
              rw [hpa1] at harrx
              injection harrx with harrx
              subst harrx
              show (od.map Prod.snd).length = a1.propsList.length
              rw [hpl1, List.length_map, List.length_map]
          have IH := ih a1 b h hInv1 (fun x hx => hgood x (List.mem_cons_of_mem _ hx))
          have hcnt1 : rowCount a1.propsArr = rowCount a.propsArr + 1 := by
            rw [hpa1, hInv.1 hemp]
            rfl
          refine ⟨IH.1, ?_, ?_, ?_, ?_⟩
          · rw [IH.2.1, hdates, List.countP_cons]
            omega
          · rw [IH.2.2.1, hcnt1, List.countP_cons, ht]
            simp only [if_true]
            omega
          · intro hnea
            exact absurd hemp hnea
          · intro _ lf ps hfind hps
            rw [List.find?_cons_of_pos _ ht] at hfind
            injection hfind with hfind
            subst hfind
            have hpseq : ps = ps0 := by
              rw [hps] at hps0
              exact Option.some.inj hps0
            subst hpseq
            have hne1 : a1.propsList ≠ [] := by
              rw [hpl1]
              exact hodkeysne
            rw [IH.2.2.2.1 hne1, hpl1, hodeq]
        · -- later proportion line: one row is stacked, columns unchanged
          have hInv1 : accInv a1 := by
            constructor
            · intro hpl
              rw [hpl1] at hpl
              exact absurd hpl hne
            · intro arrx harrx
              rw [hpa1] at harrx
              injection harrx with harrx
              subst harrx
              have hres := (vstack_spec arr arr2 _ _ (hInv.2 arr harr) hv).2
              rw [hpl1]
              exact hres
          have IH := ih a1 b h hInv1 (fun x hx => hgood x (List.mem_cons_of_mem _ hx))
          have hcnt1 : rowCount a1.propsArr = rowCount a.propsArr + 1 := by
            rw [hpa1, harr]
            exact (vstack_spec arr arr2 _ _ (hInv.2 arr harr) hv).1
          refine ⟨IH.1, ?_, ?_, ?_, ?_⟩
          · rw [IH.2.1, hdates, List.countP_cons]
            omega
          · rw [IH.2.2.1, hcnt1, List.countP_cons, ht]
            simp only [if_true]
            omega
          · intro hnea
            rw [IH.2.2.2.1 (by rw [hpl1]; exact hne), hpl1]
          · intro hemp
            exact absurd hemp hne
      · have ht2 : trigProps l = false := by
          simpa using ht
        obtain ⟨hpl1, hpa1⟩ := hnotrig ht2
        have hInv1 : accInv a1 := by
          constructor
          · intro hpl
            rw [hpl1] at hpl
            rw [hpa1]
            exact hInv.1 hpl
          · intro arrx harrx
            rw [hpa1] at harrx
            rw [hpl1]
            exact hInv.2 arrx harrx
        have IH := ih a1 b h hInv1 (fun x hx => hgood x (List.mem_cons_of_mem _ hx))
        refine ⟨IH.1, ?_, ?_, ?_, ?_⟩
        · rw [IH.2.1, hdates, List.countP_cons]
          omega
        · rw [IH.2.2.1, hpa1, List.countP_cons, ht2]
          simp
        · intro hnea
          rw [IH.2.2.2.1 (by rw [hpl1]; exact hnea), hpl1]
        · intro hemp lf ps hfind hps
          rw [List.find?_cons_of_neg _ (by simp [ht2])] at hfind
          exact IH.2.2.2.2 (by rw [hpl1]; exact hemp) lf ps hfind hps
    · exact absurd h (by simp)

/-- Payload pairs of the first aerosol-proportion line of a log. -/
def firstPropsPairs (raw : List String) : Option (List (String × ℚ)) :=
  (raw.find? trigProps).bind propsPairsOf

/-- Claim C2: a valid log with `N` date-marker lines and `N` well-formed
(non-empty, distinct-key) aerosol-proportion lines yields a Record Table
with exactly `N` rows whose aerosol columns are exactly the key set of the
first proportion line, in sorted key order. -/
theorem record_table_shape (raw : List String) (N : ℕ) (a : LogAcc) (tot : List ℚ)
    (t : RecordTable) (ps : List (String × ℚ))
    (hND : raw.countP trigDate = N)
    (hNP : raw.countP trigProps = N)
    (hfp : firstPropsPairs raw = some ps)
    (hwf : ∀ l ∈ raw, trigProps l = true → propsPairsOf l ≠ some [])
    (hkeys : (ps.map Prod.fst).Nodup)
    (hparse : _parse_maqt_log raw = .ok a)
    (htot : _interpolate_total_aot a.wPrev a.prevAot a.wNext a.nextAot = some tot)
    (hbuild : _building_maqt_dataframe a tot = .ok t) :
    t.nrows = N ∧ t.aeroCols = (sortPairs ps).map Prod.fst ∧
      t.aeroCols.Pairwise (fun x y => x < y) := by
  have hgo : parseGo initAcc raw = .ok a := by
    unfold _parse_maqt_log at hparse
    split at hparse
    · rename_i a0 hgo0
      split at hparse
      · exact absurd hparse (by simp)
      · injection hparse with hh
        subst hh
        exact hgo0
    · exact absurd hparse (by simp)
  have hInv0 : accInv initAcc := by
    constructor
    · intro _
      rfl
    · intro arrx harrx
      rw [show initAcc.propsArr = none from rfl] at harrx
      exact Option.noConfusion harrx
  have hspec := parseGo_spec raw initAcc a hgo hInv0 hwf
  obtain ⟨lf, hlf, hpsf⟩ : ∃ lf, raw.find? trigProps = some lf ∧ propsPairsOf lf = some ps := by
    unfold firstPropsPairs at hfp
    cases hF : raw.find? trigProps with
    | none =>
      rw [hF] at hfp
      exact absurd hfp (by simp)
    | some lf =>
      rw [hF] at hfp
      exact ⟨lf, rfl, hfp⟩
  have hODps : orderedDict (sortPairs ps) = sortPairs ps :=
    orderedDict_nodup _ (sortPairs_keys_nodup ps hkeys)
  have hcols : a.propsList = (sortPairs ps).map Prod.fst := by
    have hx := hspec.2.2.2.2 rfl lf ps hlf hpsf
    rw [hODps] at hx
    exact hx
  have hdlen : a.dates.length = N := by
    have hx := hspec.2.1
    rw [hND] at hx
    simpa [initAcc] using hx
  have hrc : rowCount a.propsArr = N := by
    have hx := hspec.2.2.1
    rw [hNP] at hx
    simpa [initAcc, rowCount] using hx
  unfold _building_maqt_dataframe at hbuild
  dsimp only at hbuild
  split at hbuild
  · split at hbuild
    · exact absurd hbuild (by simp)
    · rename_i arr harr
      split at hbuild
      · rename_i rows hrows
        injection hbuild with hb
        subst hb
        refine ⟨?_, hcols, ?_⟩
        · show max a.dates.length rows.length = N
          cases arr with
          | one row =>
            rw [show propsFrame (.one row) a.propsList =
                (if a.propsList.length = 1 then some (row.map fun x => [x]) else none)
              from rfl] at hrows
            split at hrows
            · rename_i h1
              injection hrows with hrows
              subst hrows
              have hrl : row.length = a.propsList.length := hspec.1.2 (.one row) harr
              have hN1 : N = 1 := by
                rw [← hrc, harr]
                rfl
              rw [List.length_map, hrl, h1, hdlen, hN1]
              exact Nat.max_self 1
            · exact absurd hrows (by simp)
          | many rs =>
            cases rs with
            | nil => exact absurd hrows (by simp [propsFrame])
            | cons r0 rs2 =>
              rw [show propsFrame (.many (r0 :: rs2)) a.propsList =
                  (if r0.length = a.propsList.length then some (r0 :: rs2) else none)
                from rfl] at hrows
              split at hrows
              · injection hrows with hrows
                subst hrows
                have hNr : (r0 :: rs2).length = N := by
                  rw [← hrc, harr]
                  rfl
                rw [hdlen, hNr]
                exact Nat.max_self N
              · exact absurd hrows (by simp)
        · show List.Pairwise (fun x y => x < y) a.propsList
          rw [hcols]
          exact sortPairs_keys_sorted ps hkeys
      · exact absurd hbuild (by simp)
  · exact absurd hbuild (by simp)

/-- Parse accumulator of the two-record log. -/
def accTwo : LogAcc :=
  ⟨[⟨2020, 1, 1⟩, ⟨2020, 1, 2⟩], [55, 55], ["dust", "sea_salt"],
   some (.many [[3/10, 7/10], [3/10, 7/10]]), [9/20, 9/20], [1/20, 1/20], [1/50, 1/50],
   [2/5, 2/5], [3/5, 3/5], [1/10, 1/10], [1/5, 1/5]⟩

/-- Record Table of the two-record log. -/
def tableTwo : RecordTable :=
  ⟨[⟨2020, 1, 1⟩, ⟨2020, 1, 2⟩], [55, 55], [9/20, 9/20], [1/20, 1/20], [1/50, 1/50],
   [2/5, 2/5], [3/5, 3/5], [1/10, 1/10], [1/5, 1/5], [4/25, 4/25],
   ["dust", "sea_salt"], [[3/10, 7/10], [3/10, 7/10]]⟩

def psTwo : List (String × ℚ) := [("dust", 3/10), ("sea_salt", 7/10)]

set_option maxRecDepth 20000 in
theorem record_table_shape_witness :
    tableTwo.nrows = 2 ∧ tableTwo.aeroCols = (sortPairs psTwo).map Prod.fst ∧
      tableTwo.aeroCols.Pairwise (fun x y => x < y) :=
  record_table_shape twoRecordRaw 2 accTwo [4/25, 4/25] tableTwo psTwo
    (by decide) (by decide) (by with_unfolding_all decide)
    (by with_unfolding_all decide) (by decide)
    (by with_unfolding_all decide) (by with_unfolding_all decide)
    (by with_unfolding_all decide)

set_option maxRecDepth 20000 in
/-- Claim C4 (as the code actually behaves): on the spec's single-record
scenario log, the parser does extract exactly the claimed values — RH 55.0,
cloud fraction 0.45, ozone 0.02, proportions dust 0.3 / sea_salt 0.7, and
TotalAOT 0.4*0.1 + 0.6*0.2 = 0.16 — but the run then crashes instead of
producing a one-row table: with a single proportion line `props_arr` is a
1-D array, and `pd.DataFrame(props_arr, columns=<two names>)` at line 103
raises an uncaught shape `ValueError` (a (2, 1) column against an implied
(2, 2) frame), so the process exits 1 with no table and no artifact.
Additionally, the claim's literal date line `L1C_20200101...` puts
`01T10302` at the slice `[10:18]` the code reads, so `pd.to_datetime`
raises on it even earlier; the first three conjuncts therefore use a
date-marker line carrying `20200101` at offset 10. -/
theorem scenario_single_record_crashes :
    _parse_maqt_log scenarioRaw =
      .ok ⟨[⟨2020, 1, 1⟩], [55], ["dust", "sea_salt"], some (.one [3/10, 7/10]),
           [9/20], [1/20], [1/50], [2/5], [3/5], [1/10], [1/5]⟩ ∧
    _interpolate_total_aot [2/5] [1/10] [3/5] [1/5] = some [4/25] ∧
    run fsScenario "scenario.log" = ⟨1, [], [], some .shapeError⟩ ∧
    extractDate dateLineLiteral = none := by
  refine ⟨?_, ?_, ?_, ?_⟩
  · with_unfolding_all decide
  · with_unfolding_all decide
  · with_unfolding_all decide
  · decide
